import Mathlib

/-!
# Verification of the `cmd` command-line dispatch library

Shallow embedding of `cmd.go` (package `cmd`): the argument classifier
(`parseArgs`, `isHelp`, `isCommand`), the dispatcher (`Program.Run`), the
flag binder (the semantics of Go's `flag.FlagSet.Parse` with
`ContinueOnError`, exactly as `Run` uses it), and the flag-table portion of
`createCommandUsage` (the alias-coalescing `hold` map driven by
`FlagSet.VisitAll`, which visits flags in lexicographical name order).

Conventions of the embedding:
* Go strings are Lean `String`s; Go byte/rune operations are modelled on the
  underlying character list (all data involved is ASCII).
* Go slice expressions `l[i:]` are modelled by `goSliceFrom`, which returns
  `none` exactly when Go would panic with "slice bounds out of range".
* The `*Program` receiver is threaded as explicit state: `Run` both consumes
  and returns the `Program` value because the source mutates the fields
  `env.Args`, `calledCmd` and `printCmdHelp` on a long-lived object.
* `Program.usage` holds the string the stored `p.usage` closure renders; the
  closure only reads fields that are immutable after construction, so it is
  modelled as a pre-rendered string.
* Output written through `Err.Print`/`fs.Usage()` is collected in a trace as
  structured `CmdUsage` values (the content of `createCommandUsage` before
  tab-stop padding).  The `flag` package's own stderr diagnostics emitted
  inside `FlagSet.Parse` are outside the model, as is `Parse` itself a Go
  stdlib call; `parseFlagsGo` models its accept/reject result and the
  positional arguments it leaves behind.
* The caller's callback `fn(*Environment, Command, []string) error` is a
  parameter `List String → Command → List String → Option String`: it
  receives the mutable `env.Args` snapshot, the selected command and the
  positional arguments, and returns `some msg` for an error with message
  `msg`, `none` for success.
-/

namespace cmd

/-! ## Go string primitives -/

/-- Go `strings.ToLower`, per-character lowercasing (ASCII-accurate; the
library only ever lowercases argument tokens). -/
def goToLower (s : String) : String := ⟨s.data.map Char.toLower⟩

/-- Does `pat` occur contiguously at the front of `s`? -/
def startsWithSeq : List Char → List Char → Bool
  | _, [] => true
  | [], _ :: _ => false
  | a :: as, b :: bs => decide (a = b) && startsWithSeq as bs

/-- Does `pat` occur contiguously anywhere in `s`? -/
def containsSeq : List Char → List Char → Bool
  | [], pat => startsWithSeq [] pat
  | s@(_ :: rest), pat => startsWithSeq s pat || containsSeq rest pat

/-- Go `strings.Contains`. -/
def goContains (s sub : String) : Bool := containsSeq s.data sub.data

/-- Go ASCII whitespace as recognised by `unicode.IsSpace` on the help texts
involved (space, tab, newline, vertical tab, form feed, carriage return). -/
def goIsSpace (c : Char) : Bool :=
  c = ' ' || c = '\t' || c = '\n' || c = '\x0B' || c = '\x0C' || c = '\r'

/-- Go `strings.TrimSpace`. -/
def goTrimSpace (s : String) : String :=
  ⟨((s.data.dropWhile goIsSpace).reverse.dropWhile goIsSpace).reverse⟩

/-- Go slice expression `l[i:]`: defined when `i ≤ len(l)`, otherwise Go
panics with "slice bounds out of range" (modelled as `none`). -/
def goSliceFrom (l : List α) (i : Nat) : Option (List α) :=
  if i ≤ l.length then some (l.drop i) else none

/-! ## Flag declarations and the flag binder (`flag.FlagSet.Parse`) -/

/-- The two `flag` value kinds the library's commands declare
(`fs.BoolVar`, `fs.StringVar`); a bool flag satisfies the `boolFlag`
interface check in `parseOne` and needs no argument. -/
inductive FlagKind
  | boolFlag
  | stringFlag
deriving DecidableEq, Repr

/-- One registered flag: Go `flag.Flag` (name, usage text, default value)
plus the kind of its `Value`. -/
structure Flag where
  name : String
  usage : String
  defValue : String
  kind : FlagKind
deriving DecidableEq, Repr

/-- Go `strconv.ParseBool`. -/
def parseBoolGo (s : String) : Option Bool :=
  if s = "1" ∨ s = "t" ∨ s = "T" ∨ s = "true" ∨ s = "TRUE" ∨ s = "True" then
    some true
  else if s = "0" ∨ s = "f" ∨ s = "F" ∨ s = "false" ∨ s = "FALSE" ∨ s = "False" then
    some false
  else none

/-- Split a flag body at its first `=` (Go `parseOne`: "equals cannot be
first", so the split scan starts after the first character). -/
def scanEq : List Char → List Char × Option (List Char)
  | [] => ([], none)
  | c :: cs =>
    if c = '=' then ([], some cs)
    else
      let r := scanEq cs
      (c :: r.1, r.2)

/-- Flag body split into name and optional `=value` part. -/
def splitFlagBody : List Char → List Char × Option (List Char)
  | [] => ([], none)
  | c :: cs =>
    let r := scanEq cs
    (c :: r.1, r.2)

/-- Lookup in the flag set's `formal` map. -/
def findFlag (flags : List Flag) (name : String) : Option Flag :=
  flags.find? (fun f => decide (f.name = name))

/-- The errors `FlagSet.Parse` can return (with `ContinueOnError`); `Run`
collapses every one of them to the sentinel `ErrParseArgs`. -/
inductive ParseFlagsErr
  | badSyntax (token : String)
  | helpRequested
  | notDefined (name : String)
  | invalidBoolValue (value name : String)
  | needsArgument (name : String)
deriving DecidableEq, Repr

/-- The outcome of Go's `parseOne` on a single token: stop at a non-flag
token, terminate flags at `--` (consuming it), fail, accept the token as a
complete flag, or accept it but demand a value from the next argument
(failing with the carried error when there is none). -/
inductive TokStep
  | stop
  | terminate
  | fail (e : ParseFlagsErr)
  | accept
  | acceptNext (e : ParseFlagsErr)
deriving DecidableEq, Repr

/-- The token analysis of Go's `parseOne`: a token shorter than two
characters or not starting with `-` stops flag parsing; `--` terminates it;
after stripping one or two minuses, a body that is empty or starts with `-`
or `=` is bad syntax; the body splits at the first `=` into name and
optional value; an unknown name is an error (`-help`/`-h` making it the
usage-printing `ErrHelp`); a bool flag validates an attached value and
needs no argument otherwise; a string flag takes its attached value or
demands the next argument. -/
def parseOneTok (flags : List Flag) (s : String) : TokStep :=
  let cs := s.data
  if cs.length < 2 ∨ cs.head? ≠ some '-' then .stop
  else if cs = ['-', '-'] then .terminate
  else
    let body := if cs.get? 1 = some '-' then cs.drop 2 else cs.drop 1
    if body = [] ∨ body.head? = some '-' ∨ body.head? = some '=' then
      .fail (.badSyntax s)
    else
      let nmv := splitFlagBody body
      let name : String := ⟨nmv.1⟩
      match findFlag flags name with
      | none =>
        if name = "help" ∨ name = "h" then .fail .helpRequested
        else .fail (.notDefined name)
      | some f =>
        match f.kind with
        | .boolFlag =>
          match nmv.2 with
          | some v =>
            match parseBoolGo ⟨v⟩ with
            | some _ => .accept
            | none => .fail (.invalidBoolValue ⟨v⟩ name)
          | none => .accept
        | .stringFlag =>
          match nmv.2 with
          | some _ => .accept
          | none => .acceptNext (.needsArgument name)

/-- Go `flag.FlagSet.Parse` (the `parseOne` loop): parses `args`
left-to-right, stopping at the first non-flag token or at `--`; returns the
remaining positional arguments, or the first parse error. -/
def parseFlagsGo (flags : List Flag) : List String → Except ParseFlagsErr (List String)
  | [] => .ok []
  | s :: rest =>
    match parseOneTok flags s with
    | .stop => .ok (s :: rest)
    | .terminate => .ok rest
    | .fail e => .error e
    | .accept => parseFlagsGo flags rest
    | .acceptNext e =>
      match rest with
      | [] => .error e
      | _ :: rest2 => parseFlagsGo flags rest2

/-! ## Usage renderer: the flag table of `createCommandUsage` -/

/-- `prettyDefaultValue` from the source: an empty default renders as
the literal token `<none>`. -/
def prettyDefaultValue (s : String) : String :=
  if s = "" then "<none>" else s

/-- One line written to the flags tab-writer by `createCommandUsage`:
either the coalesced row `"-a -b  usage (default: d)"` emitted when the
`hold` map already held a flag with the same usage text, or the plain row
`"-a  usage (default: d)"` emitted from the leftover `hold` entries. -/
inductive FlagRow
  | merged (firstName secondName usage defValue : String)
  | single (name usage defValue : String)
deriving DecidableEq, Repr

/-- Go's byte-wise lexicographic string comparison `x < y`, on the
character sequences (UTF-8 byte order agrees with scalar-value order). -/
def charListLt : List Char → List Char → Bool
  | [], [] => false
  | [], _ :: _ => true
  | _ :: _, [] => false
  | a :: as, b :: bs =>
    if a < b then true else if b < a then false else charListLt as bs

/-- Go `x < y` on strings, the `Less` used by `sort.Sort` in
`FlagSet.VisitAll`. -/
def goStrLt (x y : String) : Bool := charListLt x.data y.data

/-- Insert into the name-sorted visit order (Go's `sortFlags`, used by
`FlagSet.VisitAll`, sorts flags by name; names are unique because the
`flag` package panics on redefinition). -/
def insertFlagSorted (f : Flag) : List Flag → List Flag
  | [] => [f]
  | g :: gs =>
    if goStrLt g.name f.name then g :: insertFlagSorted f gs else f :: g :: gs

/-- The lexicographical-by-name order in which `FlagSet.VisitAll` visits the
registered flags. -/
def sortFlags : List Flag → List Flag
  | [] => []
  | f :: fs => insertFlagSorted f (sortFlags fs)

/-- The `hold` map of `createCommandUsage`, keyed by usage text.  Go map
iteration order is unspecified; the model keeps insertion order, which is
only observable when two or more entries are left over after the visit. -/
def holdLookup (hold : List (String × Flag)) (k : String) : Option Flag :=
  (hold.find? (fun e => decide (e.1 = k))).map (·.2)

/-- Deletion from the `hold` map. -/
def holdErase (hold : List (String × Flag)) (k : String) : List (String × Flag) :=
  hold.filter (fun e => decide (e.1 ≠ k))

/-- The `fs.VisitAll` callback body of `createCommandUsage`: a flag whose
usage text is already held is coalesced into a merged row (and the held
entry deleted); otherwise the flag is held back. -/
def visitStep (acc : List (String × Flag) × List FlagRow) (f : Flag) :
    List (String × Flag) × List FlagRow :=
  match holdLookup acc.1 f.usage with
  | some hf =>
    (holdErase acc.1 f.usage,
     acc.2 ++ [.merged hf.name f.name f.usage (prettyDefaultValue f.defValue)])
  | none => (acc.1 ++ [(f.usage, f)], acc.2)

/-- The rows of the flags table of `createCommandUsage`: the visit pass in
`VisitAll` order, then one single row per leftover `hold` entry. -/
def flagRows (flags : List Flag) : List FlagRow :=
  let vr := (sortFlags flags).foldl visitStep ([], [])
  vr.2 ++ vr.1.map (fun e => .single e.2.name e.2.usage (prettyDefaultValue e.2.defValue))

/-! ## Data model: commands and the program -/

/-- A registered command: the `Command` interface data (`Name`, `Args`,
`Desc`, `Help`) together with the flags its `Register` hook declares. -/
structure Command where
  name : String
  args : String
  desc : String
  help : String
  flags : List Flag
deriving DecidableEq, Repr

/-- The `Program` struct.  `envArgs` is `p.env.Args` (the only environment
field `Run` mutates); `usage` is the text rendered by the `p.usage` closure,
pre-rendered because the closure only reads construction-time fields;
`calledCmd` and `printCmdHelp` are the mutable dispatch fields (a fresh
program from `NewProgram` has both zero-valued: `""` and `false`). -/
structure Program where
  name : String
  desc : String
  root : Option Command
  commands : List Command
  envArgs : List String
  usage : String
  calledCmd : String
  printCmdHelp : Bool
deriving DecidableEq, Repr

/-- The content of `createCommandUsage p c`: the invocation line (root
commands omit the command name), the trimmed help text, and the flag-table
rows (tab-stop padding elided). -/
structure CmdUsage where
  program : String
  invocationIsRoot : Bool
  cmdName : String
  argsSig : String
  helpText : String
  rows : List FlagRow
deriving DecidableEq, Repr

/-- `createCommandUsage` from the source, structured. -/
def Program.createCommandUsage (p : Program) (c : Command) : CmdUsage :=
  { program := p.name
  , invocationIsRoot :=
      match p.root with
      | some r => decide (r.name = c.name)
      | none => false
  , cmdName := c.name
  , argsSig := c.args
  , helpText := goTrimSpace c.help
  , rows := flagRows c.flags }

/-! ## Argument classifier (`parseArgs`) -/

/-- `defaultCommand` from the source. -/
def defaultCommand : String := "default"

/-- `isHelp` from the source: lower-cased token contains `"help"`, or
lower-cases to exactly `"-h"`. -/
def isHelp (arg : String) : Bool :=
  goContains (goToLower arg) "help" || decide (goToLower arg = "-h")

/-- `isCommand` from the source: the token names a registered command. -/
def isCommand (arg : String) (cmds : List Command) : Bool :=
  cmds.any (fun c => decide (c.name = arg))

/-- The two error values `parseArgs` can return: `fmt.Errorf(p.usage())`
for a program-help request, and `ErrNoSuchCommand`. -/
inductive ParseArgsErr
  | usageErr (text : String)
  | noSuchCommand (program name : String)
deriving DecidableEq, Repr

/-- `parseArgs` from the source.  It mutates `p.calledCmd` and
`p.printCmdHelp`; the model returns the updated program.  Branches that
return an error leave both fields untouched. -/
def Program.parseArgs (p : Program) (args : List String) : Except ParseArgsErr Program :=
  match args with
  | [] => .ok { p with calledCmd := defaultCommand }
  | [_] => .ok { p with calledCmd := defaultCommand }
  | [_, a1] =>
    if isHelp a1 then .error (.usageErr p.usage)
    else if isCommand a1 p.commands then .ok { p with calledCmd := a1 }
    else if p.root.isSome then .ok { p with calledCmd := defaultCommand }
    else .error (.noSuchCommand p.name a1)
  | _ :: a1 :: a2 :: _ =>
    if isHelp a1 then .ok { p with calledCmd := a2, printCmdHelp := true }
    else if isCommand a1 p.commands then .ok { p with calledCmd := a1 }
    else if p.root.isSome then .ok { p with calledCmd := defaultCommand }
    else .error (.noSuchCommand p.name a1)

/-! ## Dispatcher (`Run`) -/

/-- The values `Run` can return, one constructor per `return` site:
`success` is `nil`; `usageErr` and `noSuchCommand` propagate `parseArgs`
errors; `errParseArgs` is the fixed sentinel `ErrParseArgs`;
`noDefaultCommand` is `ErrNoDefaultCommand` carrying the program usage;
`callbackErr` is the callback's error, returned as-is. -/
inductive RunResult
  | success
  | usageErr (text : String)
  | noSuchCommand (program name : String)
  | errParseArgs
  | noDefaultCommand (usageText : String)
  | callbackErr (msg : String)
deriving DecidableEq, Repr

/-- The `Error()` message of each non-nil `RunResult`, from the respective
`Error` methods and error constructors in the source. -/
def RunResult.errMessage : RunResult → Option String
  | .success => none
  | .usageErr t => some t
  | .noSuchCommand pn n => some (pn ++ ": " ++ n ++ ": no such command")
  | .errParseArgs => some "could not parse arguments"
  | .noDefaultCommand u => some u
  | .callbackErr e => some e

/-- What one `Run` call did: its return value, the usage pages printed
through `fs.Usage`/`Err.Print`, the callback invocations (command name and
positional arguments; the source invokes the callback at most once), and
the program value as mutated by the call. -/
structure RunTrace where
  result : RunResult
  printed : List CmdUsage
  calls : List (String × List String)
  state : Program
deriving DecidableEq, Repr

/-- The caller-supplied callback: `env.Args`, the selected command and the
positional arguments; `some msg` is an error with message `msg`. -/
abbrev Callback := List String → Command → List String → Option String

/-- The shared tail of both dispatch arms of `Run`: check `printCmdHelp`
(printing the command usage and returning nil), slice the residual
arguments at `idx` (2 for a named command, 1 for the default), parse the
flags (any failure becomes `ErrParseArgs`), and invoke the callback,
returning its error unchanged. -/
def bindAndCall (p : Program) (c : Command) (idx : Nat) (fn : Callback) : Option RunTrace :=
  if p.printCmdHelp then
    some ⟨.success, [p.createCommandUsage c], [], p⟩
  else
    match goSliceFrom p.envArgs idx with
    | none => none
    | some residual =>
      match parseFlagsGo c.flags residual with
      | .error _ => some ⟨.errParseArgs, [], [], p⟩
      | .ok pos =>
        match fn p.envArgs c pos with
        | none => some ⟨.success, [], [(c.name, pos)], p⟩
        | some e => some ⟨.callbackErr e, [], [(c.name, pos)], p⟩

/-- `Run` from the source: store `args` into `env.Args`, classify via
`parseArgs` (returning its error directly), look for a registered command
named `calledCmd` (first match wins), otherwise fall back to the default
command when `calledCmd == "default"`, report `ErrNoDefaultCommand` when no
default exists, and return `nil` silently when `calledCmd` matches nothing
at all.  A `none` result models a Go runtime panic (out-of-range slice). -/
def Program.Run (p : Program) (args : List String) (fn : Callback) : Option RunTrace :=
  match Program.parseArgs { p with envArgs := args } args with
  | .error (.usageErr t) =>
    some ⟨.usageErr t, [], [], { p with envArgs := args }⟩
  | .error (.noSuchCommand pn n) =>
    some ⟨.noSuchCommand pn n, [], [], { p with envArgs := args }⟩
  | .ok p' =>
    match p'.commands.find? (fun c => decide (c.name = p'.calledCmd)) with
    | some c => bindAndCall p' c 2 fn
    | none =>
      if p'.calledCmd = defaultCommand then
        match p'.root with
        | some r => bindAndCall p' r 1 fn
        | none => some ⟨.noDefaultCommand p'.usage, [], [], p'⟩
      else
        some ⟨.success, [], [], p'⟩

/-! ## The spec's Selection abstraction (§4.1) -/

/-- The spec's `Selection` outcomes, plus the failure case. -/
inductive Selection
  | Default
  | Named (name : String)
  | HelpForProgram
  | HelpForCommand (name : String)
  | NoSuchCommand (name : String)
deriving DecidableEq, Repr

/-- The spec's `classify` (§4.1) read off from the source's `parseArgs`
outcome: a usage error is `HelpForProgram`; a no-such-command error is
`NoSuchCommand`; a successful parse is `HelpForCommand` when the
print-help flag was set, `Named` when `calledCmd` names a registered
command (the dispatch loop checks the registry first), else `Default`. -/
def classify (p : Program) (args : List String) : Selection :=
  match p.parseArgs args with
  | .error (.usageErr _) => .HelpForProgram
  | .error (.noSuchCommand _ n) => .NoSuchCommand n
  | .ok p' =>
    if p'.printCmdHelp then .HelpForCommand p'.calledCmd
    else if isCommand p'.calledCmd p'.commands then .Named p'.calledCmd
    else .Default

/-! ## Helper lemmas -/

/-- A token that is not a registered command name finds no command in the
dispatch loop of `Run`. -/
theorem find_cmd_eq_none (cmds : List Command) (a : String)
    (h : isCommand a cmds = false) :
    cmds.find? (fun c => decide (c.name = a)) = none := by
  rw [List.find?_eq_none]
  intro c hc
  simp only [isCommand, List.any_eq_false] at h
  simpa using h c hc

/-- `FlagSet.Parse` stops at the first token that does not look like a
flag (shorter than two characters, or not starting with `-`), leaving it
and everything after it as positional arguments. -/
theorem parseFlagsGo_stop (flags : List Flag) (s : String) (rest : List String)
    (h : s.data.length < 2 ∨ s.data.head? ≠ some '-') :
    parseFlagsGo flags (s :: rest) = .ok (s :: rest) := by
  have h1 : parseOneTok flags s = .stop := by
    unfold parseOneTok
    rw [if_pos h]
  simp [parseFlagsGo, h1]

/-- `parseArgs` only mutates `calledCmd` and `printCmdHelp`. -/
theorem parseArgs_preserves {q p' : Program} {args : List String}
    (h : q.parseArgs args = .ok p') :
    p'.name = q.name ∧ p'.desc = q.desc ∧ p'.root = q.root ∧
    p'.commands = q.commands ∧ p'.envArgs = q.envArgs ∧ p'.usage = q.usage := by
  unfold Program.parseArgs at h
  split at h <;> (try split at h) <;> (try split at h) <;> (try split at h) <;>
    first
      | (injection h with h; subst h; simp)
      | simp at h

/-! ## C1 -/

/-- C1: for every program — even one whose registry contains a command
literally named "help" — classifying a two-token argument vector whose
second token is help-like yields `HelpForProgram` and never a `Named`
selection: help detection takes strict precedence over command-name
matching. -/
theorem classify_two_token_help (p : Program) (a0 a1 : String)
    (h : isHelp a1 = true) :
    classify p [a0, a1] = Selection.HelpForProgram ∧
    ∀ n, classify p [a0, a1] ≠ Selection.Named n := by
  have hp : p.parseArgs [a0, a1] = .error (.usageErr p.usage) := by
    simp [Program.parseArgs, h]
  constructor
  · simp [classify, hp]
  · intro n
    simp [classify, hp]

/-- C1 witness: a registry containing a command literally named "help",
classified on `["prog", "help"]`. -/
theorem classify_two_token_help_witness :
    isHelp "help" = true ∧
    (classify ⟨"prog", "", none, [⟨"help", "", "", "", []⟩], [], "U", "", false⟩
        ["prog", "help"] = Selection.HelpForProgram ∧
     ∀ n, classify ⟨"prog", "", none, [⟨"help", "", "", "", []⟩], [], "U", "", false⟩
        ["prog", "help"] ≠ Selection.Named n) :=
  ⟨by decide, classify_two_token_help _ "prog" "help" (by decide)⟩

/-! ## C3 -/

/-- C3 counterexample: on `["prog", "help"]`, `Run` returns the
usage-carrying error — a non-nil result, not success — and prints
nothing. -/
theorem run_program_help_cex :
    Program.Run ⟨"prog", "", none, [], [], "U", "", false⟩ ["prog", "help"]
        (fun _ _ _ => none)
      = some ⟨.usageErr "U", [], [],
              ⟨"prog", "", none, [], ["prog", "help"], "U", "", false⟩⟩ ∧
    RunResult.usageErr "U" ≠ RunResult.success := by
  decide

/-- C3 (amended): on a two-token help-like argument vector, `Run` returns
the error value carrying the rendered program usage text — not success —
prints nothing itself, and never invokes the callback. -/
theorem run_program_help (p : Program) (a0 a1 : String) (fn : Callback)
    (h : isHelp a1 = true) :
    p.Run [a0, a1] fn =
      some ⟨.usageErr p.usage, [], [], { p with envArgs := [a0, a1] }⟩ := by
  simp [Program.Run, Program.parseArgs, h]

/-- C3 witness: concrete program, `["prog", "help"]`. -/
theorem run_program_help_witness :
    isHelp "help" = true ∧
    Program.Run ⟨"prog", "d", none, [⟨"build", "", "", "", []⟩], [], "UU", "", false⟩
        ["prog", "help"] (fun _ _ _ => none)
      = some ⟨.usageErr "UU", [], [],
              ⟨"prog", "d", none, [⟨"build", "", "", "", []⟩], ["prog", "help"], "UU", "", false⟩⟩ :=
  ⟨by decide, run_program_help _ "prog" "help" _ (by decide)⟩

/-! ## C4 -/

/-- C4 counterexample: on `["prog", "help", "nope"]` with `"nope"` naming no
registered command, `Run` returns success but prints nothing at all — the
program-usage fallback the claim describes does not happen. -/
theorem run_help_unknown_target_cex :
    Program.Run ⟨"prog", "", none, [⟨"greet", "", "", "", []⟩], [], "U", "", false⟩
        ["prog", "help", "nope"] (fun _ _ _ => none)
      = some ⟨.success, [], [],
              ⟨"prog", "", none, [⟨"greet", "", "", "", []⟩],
               ["prog", "help", "nope"], "U", "nope", true⟩⟩ := by
  decide

/-- C4 (amended): on an argument vector of length at least 3 whose second
token is help-like and whose third token neither names a registered command
nor equals the literal `"default"`, `Run` returns success with the
print-help flag left set, but prints nothing and never invokes the
callback: the help request for an unknown command is silently ignored. -/
theorem run_help_unknown_target (p : Program) (a0 a1 a2 : String)
    (rest : List String) (fn : Callback)
    (h1 : isHelp a1 = true) (h2 : isCommand a2 p.commands = false)
    (h3 : a2 ≠ defaultCommand) :
    p.Run (a0 :: a1 :: a2 :: rest) fn =
      some ⟨.success, [], [],
            { p with envArgs := a0 :: a1 :: a2 :: rest,
                     calledCmd := a2, printCmdHelp := true }⟩ := by
  have hfind := find_cmd_eq_none p.commands a2 h2
  simp [Program.Run, Program.parseArgs, h1, hfind, h3]

/-- C4 witness: concrete program, `["prog", "help", "nope"]`. -/
theorem run_help_unknown_target_witness :
    (isHelp "help" = true ∧
     isCommand "nope" [⟨"greet", "", "", "", []⟩] = false ∧
     "nope" ≠ defaultCommand) ∧
    Program.Run ⟨"prog", "", some ⟨"greet", "", "", "", []⟩,
                 [⟨"greet", "", "", "", []⟩], [], "U", "", false⟩
        ["prog", "help", "nope"] (fun _ _ _ => none)
      = some ⟨.success, [], [],
              ⟨"prog", "", some ⟨"greet", "", "", "", []⟩,
               [⟨"greet", "", "", "", []⟩],
               ["prog", "help", "nope"], "U", "nope", true⟩⟩ :=
  ⟨by decide,
   run_help_unknown_target _ "prog" "help" "nope" [] _
     (by decide) (by decide) (by decide)⟩

/-! ## C10 -/

/-- C10 counterexample: with a default command registered, `Run` on the
empty argument vector evaluates the Go slice expression `p.env.Args[1:]`
with `len(p.env.Args) == 0`, which is out of range — a runtime panic,
modelled as `none`. -/
theorem run_empty_args_cex :
    Program.Run ⟨"prog", "", some ⟨"greet", "[name]", "", "", []⟩, [], [], "U", "", false⟩
        [] (fun _ _ _ => none) = none := by
  decide

/-- C10 (amended): on an argument vector of length exactly 1, a fresh
program (print-help flag unset) with a default command registered and no
registered command literally named `"default"` stays within bounds and
invokes the callback on the default command with an empty positional list;
on the empty vector the residual slice `p.env.Args[1:]` is out of bounds
and Go panics. -/
theorem run_single_arg_default (p : Program) (a0 : String) (fn : Callback)
    (r : Command)
    (hroot : p.root = some r)
    (hdef : isCommand defaultCommand p.commands = false)
    (hfresh : p.printCmdHelp = false) :
    p.Run [a0] fn =
      some ⟨(match fn [a0] r [] with
             | none => .success
             | some e => .callbackErr e),
            [], [(r.name, [])],
            { p with envArgs := [a0], calledCmd := defaultCommand }⟩ := by
  have hfind := find_cmd_eq_none p.commands defaultCommand hdef
  have hpf : parseFlagsGo r.flags [] = Except.ok [] := rfl
  simp [Program.Run, Program.parseArgs, hfind, hroot, bindAndCall, hfresh,
        goSliceFrom, hpf]
  cases hf : fn [a0] r [] <;> simp [hf]

/-- C10 witness: concrete fresh program with a default command, run on
`["prog"]`: the callback runs with no positional arguments. -/
theorem run_single_arg_default_witness :
    ((⟨"prog", "", some ⟨"greet", "[name]", "", "", []⟩, [], [], "U", "", false⟩ : Program).root
        = some ⟨"greet", "[name]", "", "", []⟩ ∧
     isCommand defaultCommand ([] : List Command) = false ∧
     (false : Bool) = false) ∧
    Program.Run ⟨"prog", "", some ⟨"greet", "[name]", "", "", []⟩, [], [], "U", "", false⟩
        ["prog"] (fun _ _ _ => none)
      = some ⟨.success, [], [("greet", [])],
              ⟨"prog", "", some ⟨"greet", "[name]", "", "", []⟩, [],
               ["prog"], "U", defaultCommand, false⟩⟩ :=
  ⟨by decide,
   run_single_arg_default _ "prog" _ _ rfl (by decide) rfl⟩

/-! ## C2 -/

/-- C2 counterexample: `"-x"` is neither help-like nor a registered command
name and a default is registered, so classification picks the default — but
the token is handed to flag parsing, which fails, so `Run` returns
`ErrParseArgs` and the callback never sees `"-x"` as a positional. -/
theorem run_default_flaglike_token_cex :
    isHelp "-x" = false ∧
    isCommand "-x" ([] : List Command) = false ∧
    Program.Run ⟨"prog", "", some ⟨"greet", "[name]", "", "", []⟩, [], [], "U", "", false⟩
        ["prog", "-x"] (fun _ _ _ => none)
      = some ⟨.errParseArgs, [], [],
              ⟨"prog", "", some ⟨"greet", "[name]", "", "", []⟩, [],
               ["prog", "-x"], "U", defaultCommand, false⟩⟩ := by
  decide

/-- C2 (amended): on a fresh program with a default registered and no
command literally named `"default"`, a two-token vector whose second token
is neither help-like nor a registered command name classifies as `Default`;
and when that token does not have the shape of a flag (fewer than two
characters, or not starting with `-`), flag parsing stops at it and the
callback receives it as the sole positional argument.  Flag-shaped unknown
tokens are instead consumed by flag parsing (and can fail it, see the
counterexample). -/
theorem run_default_forwards_token (p : Program) (a0 t : String) (fn : Callback)
    (r : Command)
    (hroot : p.root = some r)
    (hhelp : isHelp t = false)
    (hcmd : isCommand t p.commands = false)
    (hdef : isCommand defaultCommand p.commands = false)
    (hfresh : p.printCmdHelp = false)
    (hshape : t.data.length < 2 ∨ t.data.head? ≠ some '-') :
    classify p [a0, t] = Selection.Default ∧
    p.Run [a0, t] fn =
      some ⟨(match fn [a0, t] r [t] with
             | none => .success
             | some e => .callbackErr e),
            [], [(r.name, [t])],
            { p with envArgs := [a0, t], calledCmd := defaultCommand }⟩ := by
  have hfind := find_cmd_eq_none p.commands defaultCommand hdef
  have hpf : parseFlagsGo r.flags [t] = Except.ok [t] :=
    parseFlagsGo_stop r.flags t [] hshape
  constructor
  · have hp : p.parseArgs [a0, t] = .ok { p with calledCmd := defaultCommand } := by
      simp [Program.parseArgs, hhelp, hcmd, hroot]
    simp [classify, hp, hfresh, hdef]
  · simp [Program.Run, Program.parseArgs, hhelp, hcmd, hroot, hfind,
          bindAndCall, hfresh, goSliceFrom, hpf]
    cases hf : fn [a0, t] r [t] <;> simp [hf]

/-- C2 witness: `["prog", "unknown"]` with default command `greet`. -/
theorem run_default_forwards_token_witness :
    ((⟨"prog", "", some ⟨"greet", "[name]", "", "", []⟩, [], [], "U", "", false⟩ : Program).root
        = some ⟨"greet", "[name]", "", "", []⟩ ∧
     isHelp "unknown" = false ∧
     isCommand "unknown" ([] : List Command) = false ∧
     isCommand defaultCommand ([] : List Command) = false ∧
     ("unknown".data.length < 2 ∨ "unknown".data.head? ≠ some '-')) ∧
    (classify ⟨"prog", "", some ⟨"greet", "[name]", "", "", []⟩, [], [], "U", "", false⟩
        ["prog", "unknown"] = Selection.Default ∧
     Program.Run ⟨"prog", "", some ⟨"greet", "[name]", "", "", []⟩, [], [], "U", "", false⟩
        ["prog", "unknown"] (fun _ _ _ => none)
      = some ⟨.success, [], [("greet", ["unknown"])],
              ⟨"prog", "", some ⟨"greet", "[name]", "", "", []⟩, [],
               ["prog", "unknown"], "U", defaultCommand, false⟩⟩) :=
  ⟨⟨rfl, by decide, by decide, by decide, by decide⟩,
   run_default_forwards_token _ "prog" "unknown" _ _ rfl (by decide) (by decide)
     (by decide) rfl (by decide)⟩

/-! ## C5 -/

/-- C5 counterexample: two programs whose selected commands have different
names both fail flag parsing and both return the very same error value, the
fixed sentinel `ErrParseArgs` with message `"could not parse arguments"`,
which does not mention the command name at all — the error is not tagged
with the command name. -/
theorem run_parse_error_untagged_cex :
    (Program.Run ⟨"prog", "", none, [⟨"alpha", "", "", "", []⟩], [], "U", "", false⟩
        ["prog", "alpha", "-bad"] (fun _ _ _ => none)).map (·.result)
      = some RunResult.errParseArgs ∧
    (Program.Run ⟨"prog", "", none, [⟨"beta", "", "", "", []⟩], [], "U", "", false⟩
        ["prog", "beta", "-bad"] (fun _ _ _ => none)).map (·.result)
      = some RunResult.errParseArgs ∧
    RunResult.errParseArgs.errMessage = some "could not parse arguments" ∧
    goContains "could not parse arguments" "alpha" = false := by
  decide

/-- C5 (amended): for every selected command (a registered match, or the
default command) and every residual argument slice on which flag parsing
fails, `Run` returns the fixed sentinel error `ErrParseArgs` — whose
message `"could not parse arguments"` carries no command name — and the
callback is never invoked. -/
theorem run_flag_parse_failure (p p' : Program) (args : List String)
    (fn : Callback) (c : Command) (res : List String) (e : ParseFlagsErr)
    (hparse : Program.parseArgs { p with envArgs := args } args = .ok p')
    (hnohelp : p'.printCmdHelp = false)
    (hsel : (p'.commands.find? (fun x => decide (x.name = p'.calledCmd)) = some c
              ∧ goSliceFrom args 2 = some res)
          ∨ (p'.commands.find? (fun x => decide (x.name = p'.calledCmd)) = none
              ∧ p'.calledCmd = defaultCommand ∧ p'.root = some c
              ∧ goSliceFrom args 1 = some res))
    (hfail : parseFlagsGo c.flags res = .error e) :
    p.Run args fn = some ⟨.errParseArgs, [], [], p'⟩ := by
  have henv : p'.envArgs = args := by
    have := (parseArgs_preserves hparse).2.2.2.2.1
    simpa using this
  rcases hsel with ⟨hfind, hres⟩ | ⟨hfind, hcc, hroot, hres⟩
  · simp [Program.Run, hparse, hfind, bindAndCall, hnohelp, henv, hres, hfail]
  · rw [hcc] at hfind
    simp [Program.Run, hparse, hfind, hcc, hroot, bindAndCall, hnohelp, henv,
          hres, hfail]

/-- C5 witness: registered command `alpha` with no flags, residual
`["-bad"]` fails to parse, `Run` returns `ErrParseArgs` and records no
callback invocation. -/
theorem run_flag_parse_failure_witness :
    (Program.parseArgs
        ⟨"prog", "", none, [⟨"alpha", "", "", "", []⟩], ["prog", "alpha", "-bad"], "U", "", false⟩
        ["prog", "alpha", "-bad"]
      = .ok ⟨"prog", "", none, [⟨"alpha", "", "", "", []⟩],
             ["prog", "alpha", "-bad"], "U", "alpha", false⟩ ∧
     parseFlagsGo [] ["-bad"] = .error (.notDefined "bad")) ∧
    Program.Run ⟨"prog", "", none, [⟨"alpha", "", "", "", []⟩], [], "U", "", false⟩
        ["prog", "alpha", "-bad"] (fun _ _ _ => none)
      = some ⟨.errParseArgs, [], [],
              ⟨"prog", "", none, [⟨"alpha", "", "", "", []⟩],
               ["prog", "alpha", "-bad"], "U", "alpha", false⟩⟩ :=
  ⟨⟨rfl, rfl⟩,
   run_flag_parse_failure _ _ ["prog", "alpha", "-bad"] _ ⟨"alpha", "", "", "", []⟩
     ["-bad"] (.notDefined "bad") rfl rfl
     (Or.inl ⟨by decide, rfl⟩) rfl⟩

/-! ## C6 -/

/-- C6 counterexample: the callback returns an error with message `"boom"`;
`Run` returns exactly that error — its message is `"boom"`, which does not
contain the program name `"prog"` — so no program-name wrapping happens. -/
theorem run_callback_error_unwrapped_cex :
    (Program.Run ⟨"prog", "", some ⟨"greet", "", "", "", []⟩, [], [], "U", "", false⟩
        ["prog"] (fun _ _ _ => some "boom")).map (·.result)
      = some (RunResult.callbackErr "boom") ∧
    (RunResult.callbackErr "boom").errMessage = some "boom" ∧
    goContains "boom" "prog" = false := by
  decide

/-- C6 (amended): for every named or default dispatch in which the caller's
callback returns an error, `Run` returns that error value unchanged — its
message is exactly the callback's message, with no program-name context
added. -/
theorem run_callback_error_unwrapped (p p' : Program) (args : List String)
    (fn : Callback) (c : Command) (res pos : List String) (e : String)
    (hparse : Program.parseArgs { p with envArgs := args } args = .ok p')
    (hnohelp : p'.printCmdHelp = false)
    (hsel : (p'.commands.find? (fun x => decide (x.name = p'.calledCmd)) = some c
              ∧ goSliceFrom args 2 = some res)
          ∨ (p'.commands.find? (fun x => decide (x.name = p'.calledCmd)) = none
              ∧ p'.calledCmd = defaultCommand ∧ p'.root = some c
              ∧ goSliceFrom args 1 = some res))
    (hok : parseFlagsGo c.flags res = .ok pos)
    (hfn : fn args c pos = some e) :
    p.Run args fn = some ⟨.callbackErr e, [], [(c.name, pos)], p'⟩ ∧
    (RunResult.callbackErr e).errMessage = some e := by
  have henv : p'.envArgs = args := by
    have := (parseArgs_preserves hparse).2.2.2.2.1
    simpa using this
  refine ⟨?_, rfl⟩
  rcases hsel with ⟨hfind, hres⟩ | ⟨hfind, hcc, hroot, hres⟩
  · simp [Program.Run, hparse, hfind, bindAndCall, hnohelp, henv, hres, hok, hfn]
  · rw [hcc] at hfind
    simp [Program.Run, hparse, hfind, hcc, hroot, bindAndCall, hnohelp, henv,
          hres, hok, hfn]

/-- C6 witness: default dispatch of `greet` whose callback fails with
`"boom"`; `Run` returns `callbackErr "boom"` as-is. -/
theorem run_callback_error_unwrapped_witness :
    (Program.parseArgs
        ⟨"prog", "", some ⟨"greet", "", "", "", []⟩, [], ["prog"], "U", "", false⟩
        ["prog"]
      = .ok ⟨"prog", "", some ⟨"greet", "", "", "", []⟩, [],
             ["prog"], "U", defaultCommand, false⟩ ∧
     parseFlagsGo [] [] = .ok [] ∧
     (fun (_ : List String) (_ : Command) (_ : List String) =>
        some "boom") ["prog"] (⟨"greet", "", "", "", []⟩ : Command) [] = some "boom") ∧
    (Program.Run ⟨"prog", "", some ⟨"greet", "", "", "", []⟩, [], [], "U", "", false⟩
        ["prog"] (fun _ _ _ => some "boom")
      = some ⟨.callbackErr "boom", [], [("greet", [])],
              ⟨"prog", "", some ⟨"greet", "", "", "", []⟩, [],
               ["prog"], "U", defaultCommand, false⟩⟩ ∧
     (RunResult.callbackErr "boom").errMessage = some "boom") :=
  ⟨⟨rfl, rfl, rfl⟩,
   run_callback_error_unwrapped _ _ ["prog"] _ ⟨"greet", "", "", "", []⟩ [] []
     "boom" rfl rfl (Or.inr ⟨by decide, rfl, rfl, rfl⟩)
     rfl rfl⟩

/-! ## C8: characterising `isHelp` -/

/-- `Char.toLower` only moves the basic-latin upper-case range. -/
theorem char_toLower_of_not_upper {c : Char}
    (h : ¬(c.toNat ≥ 65 ∧ c.toNat ≤ 90)) : c.toLower = c := by
  unfold Char.toLower
  exact if_neg h

/-- Round-trip for `Char.ofNat` on valid code points. -/
theorem char_toNat_ofNat_valid {n : Nat} (h : n.isValidChar) :
    (Char.ofNat n).toNat = n := by
  unfold Char.ofNat
  rw [dif_pos h]
  simp [Char.ofNatAux, Char.toNat, UInt32.toNat]

/-- The only character lower-casing to `'-'` is `'-'` itself. -/
theorem char_toLower_eq_dash {c : Char} : c.toLower = '-' ↔ c = '-' := by
  constructor
  · intro h
    by_cases hr : c.toNat ≥ 65 ∧ c.toNat ≤ 90
    · exfalso
      obtain ⟨hl, hu⟩ := hr
      have hv : (c.toNat + 32).isValidChar := by
        left
        omega
      have h2 : c.toLower = Char.ofNat (c.toNat + 32) := by
        unfold Char.toLower
        exact if_pos ⟨hl, hu⟩
      have h3 := char_toNat_ofNat_valid hv
      rw [h2] at h
      have h4 := congrArg Char.toNat h
      rw [h3, show ('-').toNat = 45 from rfl] at h4
      omega
    · rw [char_toLower_of_not_upper hr] at h
      exact h
  · intro h
    subst h
    decide

/-- The characters lower-casing to `'h'` are exactly `'h'` and `'H'`. -/
theorem char_toLower_eq_h {c : Char} : c.toLower = 'h' ↔ c = 'h' ∨ c = 'H' := by
  constructor
  · intro h
    by_cases hr : c.toNat ≥ 65 ∧ c.toNat ≤ 90
    · right
      obtain ⟨hl, hu⟩ := hr
      have hv : (c.toNat + 32).isValidChar := by
        left
        omega
      have h2 : c.toLower = Char.ofNat (c.toNat + 32) := by
        unfold Char.toLower
        exact if_pos ⟨hl, hu⟩
      have h3 := char_toNat_ofNat_valid hv
      rw [h2] at h
      have h4 := congrArg Char.toNat h
      rw [h3, show ('h').toNat = 104 from rfl] at h4
      have h5 : c.toNat = 72 := by omega
      have h6 := Char.ofNat_toNat c
      rw [h5] at h6
      rw [← h6]
    · left
      rw [char_toLower_of_not_upper hr] at h
      exact h
  · intro h
    rcases h with h | h <;> subst h <;> decide

/-- The strings whose Go-lowercasing is `"-h"` are exactly `"-h"` and
`"-H"`. -/
theorem goToLower_eq_dash_h (s : String) :
    goToLower s = "-h" ↔ s = "-h" ∨ s = "-H" := by
  constructor
  · intro h
    have hd : s.data.map Char.toLower = ['-', 'h'] := by
      have h2 := congrArg String.data h
      simpa [goToLower] using h2
    have hlen : s.data.length = 2 := by
      have h3 := congrArg List.length hd
      simpa using h3
    obtain ⟨a, b, hab⟩ := List.length_eq_two.mp hlen
    rw [hab] at hd
    simp only [List.map_cons, List.map_nil, List.cons.injEq, and_true] at hd
    obtain ⟨ha, hb⟩ := hd
    have ha2 : a = '-' := char_toLower_eq_dash.mp ha
    obtain ⟨d⟩ := s
    simp only at hab
    subst hab
    subst ha2
    rcases char_toLower_eq_h.mp hb with hb2 | hb2 <;> subst hb2
    · left
      decide
    · right
      decide
  · intro h
    rcases h with h | h <;> subst h <;> decide

/-- C8 counterexample: `"-H"` is help-like for the source's `isHelp`
although it is not exactly the string `"-h"` (and its lower-cased form does
not contain `"help"`): the claim's "exactly `-h`" reading is wrong. -/
theorem isHelp_dash_capital_cex :
    isHelp "-H" = true ∧ ("-H" : String) ≠ "-h" ∧
    goContains (goToLower "-H") "help" = false := by
  decide

/-- C8 (amended): a token is help-like iff its lower-cased form contains
the substring `"help"`, or the token is `"-h"` or `"-H"` (the two strings
whose lower-cased form is exactly `"-h"`). -/
theorem isHelp_characterization (s : String) :
    isHelp s = true ↔
      goContains (goToLower s) "help" = true ∨ s = "-h" ∨ s = "-H" := by
  simp [isHelp, Bool.or_eq_true, decide_eq_true_eq, goToLower_eq_dash_h]

/-! ## C7 -/

/-- Transitivity of the byte-wise string order. -/
theorem charListLt_trans {x y z : List Char} (h1 : charListLt x y = true)
    (h2 : charListLt y z = true) : charListLt x z = true := by
  induction x generalizing y z with
  | nil =>
    cases z with
    | nil =>
      cases y with
      | nil => simp [charListLt] at h1
      | cons b bs => simp [charListLt] at h2
    | cons c cs => simp [charListLt]
  | cons a as ih =>
    cases y with
    | nil => simp [charListLt] at h1
    | cons b bs =>
      cases z with
      | nil => simp [charListLt] at h2
      | cons c cs =>
        simp only [charListLt] at h1 h2 ⊢
        rcases lt_trichotomy a b with hab | hab | hab
        · rcases lt_trichotomy b c with hbc | hbc | hbc
          · simp [lt_trans hab hbc]
          · subst hbc
            simp [hab]
          · simp [lt_asymm hbc, hbc] at h2
        · subst hab
          simp only [lt_irrefl, if_false, ite_self] at h1
          rcases lt_trichotomy a c with hac | hac | hac
          · simp [hac]
          · subst hac
            rw [if_neg (lt_irrefl a), if_neg (lt_irrefl a)] at h2 ⊢
            exact ih h1 h2
          · simp [lt_asymm hac, hac] at h2
        · simp [lt_asymm hab, hab] at h1

/-- Transitivity of Go string `<`. -/
theorem goStrLt_trans {x y z : String} (h1 : goStrLt x y = true)
    (h2 : goStrLt y z = true) : goStrLt x z = true :=
  charListLt_trans h1 h2

/-- C7 counterexample: flags registered in the order `pirate`, `p` (same
usage text) then `v` (distinct usage text) render the coalesced row as
`-p -pirate` — lexicographic visit order, not the registration order
`-pirate -p` the claim requires. -/
theorem flagRows_registration_order_cex :
    flagRows [⟨"pirate", "Say hello like a pirate", "false", .boolFlag⟩,
              ⟨"p", "Say hello like a pirate", "false", .boolFlag⟩,
              ⟨"v", "verbose output", "", .boolFlag⟩]
      = [.merged "p" "pirate" "Say hello like a pirate" "false",
         .single "v" "verbose output" "<none>"] ∧
    FlagRow.merged "p" "pirate" "Say hello like a pirate" "false"
      ≠ FlagRow.merged "pirate" "p" "Say hello like a pirate" "false" := by
  decide

/-- C7 (amended): in command-level usage rendering of three flags of which
exactly the first two share byte-identical description text, the two
sharing flags produce exactly one merged table row carrying both flag
names — ordered lexicographically by flag name (the `VisitAll` visit
order), not by registration order — and showing the
lexicographically-later flag's default, while the flag with distinct
description text produces exactly its own single row. -/
theorem flagRows_coalesce_pair (a b c : Flag)
    (hu : a.usage = b.usage) (hcu : c.usage ≠ b.usage) :
    flagRows [a, b, c] =
      [FlagRow.merged (if goStrLt b.name a.name then b.name else a.name)
                      (if goStrLt b.name a.name then a.name else b.name)
                      b.usage
                      (prettyDefaultValue
                        (if goStrLt b.name a.name then a.defValue else b.defValue)),
       FlagRow.single c.name c.usage (prettyDefaultValue c.defValue)] := by
  have hcu2 : ¬(b.usage = c.usage) := fun h => hcu h.symm
  by_cases h1 : goStrLt c.name b.name = true
  · by_cases h3 : goStrLt c.name a.name = true
    · by_cases h2 : goStrLt b.name a.name = true
      · simp [flagRows, sortFlags, insertFlagSorted, h1, h2, h3,
              visitStep, holdLookup, holdErase, hu, hcu, hcu2]
      · simp [flagRows, sortFlags, insertFlagSorted, h1, h2, h3,
              visitStep, holdLookup, holdErase, hu, hcu, hcu2]
    · have h2 : ¬(goStrLt b.name a.name = true) := by
        intro hba
        exact h3 (goStrLt_trans h1 hba)
      simp [flagRows, sortFlags, insertFlagSorted, h1, h2, h3,
            visitStep, holdLookup, holdErase, hu, hcu, hcu2]
  · by_cases h2 : goStrLt b.name a.name = true
    · by_cases h3 : goStrLt c.name a.name = true
      · simp [flagRows, sortFlags, insertFlagSorted, h1, h2, h3,
              visitStep, holdLookup, holdErase, hu, hcu, hcu2]
      · simp [flagRows, sortFlags, insertFlagSorted, h1, h2, h3,
              visitStep, holdLookup, holdErase, hu, hcu, hcu2]
    · simp [flagRows, sortFlags, insertFlagSorted, h1, h2,
            visitStep, holdLookup, holdErase, hu, hcu, hcu2]

/-- C7 witness: the `greet` example's flags `pirate` and `p` with identical
description plus a distinct `v` flag. -/
theorem flagRows_coalesce_pair_witness :
    ((⟨"pirate", "Say hello like a pirate", "false", .boolFlag⟩ : Flag).usage
        = (⟨"p", "Say hello like a pirate", "false", .boolFlag⟩ : Flag).usage ∧
     (⟨"v", "verbose output", "", .boolFlag⟩ : Flag).usage
        ≠ (⟨"p", "Say hello like a pirate", "false", .boolFlag⟩ : Flag).usage) ∧
    flagRows [⟨"pirate", "Say hello like a pirate", "false", .boolFlag⟩,
              ⟨"p", "Say hello like a pirate", "false", .boolFlag⟩,
              ⟨"v", "verbose output", "", .boolFlag⟩]
      = [FlagRow.merged
           (if goStrLt "p" "pirate" then "p" else "pirate")
           (if goStrLt "p" "pirate" then "pirate" else "p")
           "Say hello like a pirate"
           (prettyDefaultValue (if goStrLt "p" "pirate" then "false" else "false"))
         , FlagRow.single "v" "verbose output" (prettyDefaultValue "")] := by
  refine ⟨⟨rfl, by decide⟩, ?_⟩
  exact flagRows_coalesce_pair
    ⟨"pirate", "Say hello like a pirate", "false", .boolFlag⟩
    ⟨"p", "Say hello like a pirate", "false", .boolFlag⟩
    ⟨"v", "verbose output", "", .boolFlag⟩ rfl (by decide)

/-! ## C9 -/

/-- Updating `envArgs` with its current value is the identity. -/
theorem program_envArgs_update_self {p : Program} {args : List String}
    (h : p.envArgs = args) : ({ p with envArgs := args } : Program) = p := by
  cases p
  subst h
  rfl

/-- Both dispatch arms of `Run` leave the program state exactly as
`parseArgs` produced it. -/
theorem bindAndCall_state {p : Program} {c : Command} {idx : Nat}
    {fn : Callback} {tr : RunTrace} (h : bindAndCall p c idx fn = some tr) :
    tr.state = p := by
  unfold bindAndCall at h
  split at h
  · injection h with h
    subst h
    rfl
  · cases hg : goSliceFrom p.envArgs idx with
    | none =>
      simp only [hg] at h
      exact Option.noConfusion h
    | some residual =>
      simp only [hg] at h
      cases hpf : parseFlagsGo c.flags residual with
      | error e =>
        simp only [hpf] at h
        injection h with h
        subst h
        rfl
      | ok pos =>
        simp only [hpf] at h
        cases hfn : fn p.envArgs c pos with
        | none =>
          simp only [hfn] at h
          injection h with h
          subst h
          rfl
        | some e =>
          simp only [hfn] at h
          injection h with h
          subst h
          rfl

/-- Re-running `parseArgs` on the state it produced reproduces that state:
every successful branch overwrites the mutable fields with values that
depend only on the arguments and the immutable registry. -/
theorem parseArgs_idem {q p' : Program} {args : List String}
    (h : q.parseArgs args = .ok p') : p'.parseArgs args = .ok p' := by
  unfold Program.parseArgs at h ⊢
  split at h <;> (try split at h) <;> (try split at h) <;> (try split at h) <;>
    first
      | (injection h with h; subst h; simp_all)
      | simp at h

/-- C9 counterexample: after `run(["prog","help","greet"])` the print-help
field is left set on the shared program value, so a later
`run(["prog","greet"])` on that same value prints usage and skips the
callback — whereas the same call on the original value invokes the
callback: mutated shared state alters a later run. -/
theorem run_shared_state_leak_cex :
    ((Program.Run ⟨"prog", "", none, [⟨"greet", "[name]", "", "", []⟩],
          [], "U", "", false⟩
        ["prog", "help", "greet"] (fun _ _ _ => none)).bind
      (fun tr => tr.state.Run ["prog", "greet"] (fun _ _ _ => none))).map
        (fun tr => tr.calls)
      = some [] ∧
    ((Program.Run ⟨"prog", "", none, [⟨"greet", "[name]", "", "", []⟩],
          [], "U", "", false⟩
        ["prog", "greet"] (fun _ _ _ => none)).map (fun tr => tr.calls))
      = some [("greet", [])] := by
  decide

/-- C9 (amended): `Run` is idempotent for a fixed argument vector — a
second call on the state the first produced returns the identical trace
(same result, same printed usage, same callback invocations, same state).
The stronger claim fails: state mutated by one call (the print-help field)
does alter a later call with a different argument vector, see the
counterexample. -/
theorem run_idempotent_same_args (p : Program) (args : List String)
    (fn : Callback) (tr : RunTrace) (h : p.Run args fn = some tr) :
    tr.state.Run args fn = some tr := by
  unfold Program.Run at h
  cases hq : ({ p with envArgs := args } : Program).parseArgs args with
  | error e =>
    rw [hq] at h
    cases e with
    | usageErr t =>
      injection h with h
      subst h
      simp [Program.Run, hq]
    | noSuchCommand pn n =>
      injection h with h
      subst h
      simp [Program.Run, hq]
  | ok p1 =>
    simp only [hq] at h
    have hpi := parseArgs_idem hq
    have henv : p1.envArgs = args := by
      have h5 := (parseArgs_preserves hq).2.2.2.2.1
      simpa using h5
    have hup := program_envArgs_update_self henv
    have hrun : p1.Run args fn =
        (match p1.commands.find? (fun c => decide (c.name = p1.calledCmd)) with
         | some c => bindAndCall p1 c 2 fn
         | none =>
           if p1.calledCmd = defaultCommand then
             match p1.root with
             | some r => bindAndCall p1 r 1 fn
             | none => some ⟨.noDefaultCommand p1.usage, [], [], p1⟩
           else some ⟨.success, [], [], p1⟩) := by
      unfold Program.Run
      rw [hup, hpi]
    cases hf : p1.commands.find? (fun c => decide (c.name = p1.calledCmd)) with
    | some c =>
      simp only [hf] at h
      have hst : tr.state = p1 := bindAndCall_state h
      rw [hst, hrun]
      simpa [hf] using h
    | none =>
      simp only [hf] at h
      by_cases hd : p1.calledCmd = defaultCommand
      · rw [hd] at hf
        rw [if_pos hd] at h
        cases hr : p1.root with
        | some r =>
          simp only [hr] at h
          have hst : tr.state = p1 := bindAndCall_state h
          rw [hst, hrun]
          simpa [hf, hd, hr] using h
        | none =>
          simp only [hr] at h
          injection h with h
          subst h
          show p1.Run args fn = some ⟨.noDefaultCommand p1.usage, [], [], p1⟩
          rw [hrun]
          simp [hf, hd, hr]
      · rw [if_neg hd] at h
        injection h with h
        subst h
        show p1.Run args fn = some ⟨.success, [], [], p1⟩
        rw [hrun]
        simp [hf, hd]

/-- C9 witness: running `["prog", "greet"]` twice — the second call starting
from the first call's final state — returns the identical trace. -/
theorem run_idempotent_same_args_witness :
    Program.Run ⟨"prog", "", none, [⟨"greet", "[name]", "", "", []⟩],
        [], "U", "", false⟩
        ["prog", "greet"] (fun _ _ _ => none)
      = some ⟨.success, [], [("greet", [])],
              ⟨"prog", "", none, [⟨"greet", "[name]", "", "", []⟩],
               ["prog", "greet"], "U", "greet", false⟩⟩ ∧
    Program.Run ⟨"prog", "", none, [⟨"greet", "[name]", "", "", []⟩],
        ["prog", "greet"], "U", "greet", false⟩
        ["prog", "greet"] (fun _ _ _ => none)
      = some ⟨.success, [], [("greet", [])],
              ⟨"prog", "", none, [⟨"greet", "[name]", "", "", []⟩],
               ["prog", "greet"], "U", "greet", false⟩⟩ :=
  ⟨by decide,
   run_idempotent_same_args
     ⟨"prog", "", none, [⟨"greet", "[name]", "", "", []⟩], [], "U", "", false⟩
     ["prog", "greet"] (fun _ _ _ => none)
     ⟨.success, [], [("greet", [])],
      ⟨"prog", "", none, [⟨"greet", "[name]", "", "", []⟩],
       ["prog", "greet"], "U", "greet", false⟩⟩
     (by decide)⟩

end cmd
